import Mathlib

/-!
Shallow embedding of the CatDogClassifier_TensorFlow notebook.

The notebook is a linear orchestration script: it configures two
ImageDataGenerator pipelines, builds a fixed sequential CNN, trains it with
model.fit, saves it, and evaluates it with a thresholded confusion matrix.
The configuration records below are transcribed from the notebook cells;
the behaviour of the underlying libraries (Keras, scikit-learn), which is
not part of the repository, is modelled from the specification where a
claim depends on it, with each such definition marked in its doc comment.
Machine floating point is embedded as exact rationals.
-/

namespace CatDog

/-- Configuration record of a Keras ImageDataGenerator, holding the
augmentation-related arguments the notebook passes. Arguments the notebook
leaves unspecified keep the library defaults (no rotation, no shifts, no
shear, no zoom, no flip, fill_mode nearest), recorded explicitly here.
Fractional values are embedded as rationals. -/
structure ImageDataGenConfig where
  rescale : ℚ
  rotation_range : ℕ
  width_shift_range : ℚ
  height_shift_range : ℚ
  shear_range : ℚ
  zoom_range : ℚ
  horizontal_flip : Bool
  fill_mode : String
deriving DecidableEq

/-- Transcribed from the notebook cell creating train_datagen: rescale 1/255,
rotation_range 40, width and height shift 0.2, shear 0.2, zoom 0.2,
horizontal_flip true, fill_mode nearest. -/
def train_datagen : ImageDataGenConfig where
  rescale := 1/255
  rotation_range := 40
  width_shift_range := 1/5
  height_shift_range := 1/5
  shear_range := 1/5
  zoom_range := 1/5
  horizontal_flip := true
  fill_mode := "nearest"

/-- Transcribed from the notebook cell creating val_datagen: only
rescale 1/255 is passed; every other argument keeps its library default. -/
def val_datagen : ImageDataGenConfig where
  rescale := 1/255
  rotation_range := 0
  width_shift_range := 0
  height_shift_range := 0
  shear_range := 0
  zoom_range := 0
  horizontal_flip := false
  fill_mode := "nearest"

/-- Predicate telling whether a generator configuration applies any random
augmentation at all. -/
def isAugmenting (c : ImageDataGenConfig) : Bool :=
  decide (c.rotation_range ≠ 0) || decide (c.width_shift_range ≠ 0) ||
  decide (c.height_shift_range ≠ 0) || decide (c.shear_range ≠ 0) ||
  decide (c.zoom_range ≠ 0) || c.horizontal_flip

/-- Modelled from the spec: when horizontal_flip is enabled the library flips
each image with probability one half; otherwise it never flips. Missing from
src/: the flip draw happens inside the Keras library. -/
def flip_probability (c : ImageDataGenConfig) : ℚ :=
  if c.horizontal_flip then 1/2 else 0

/-- Pixel rescaling applied by a generator configuration: every pixel value of
the decoded image is multiplied by the configured rescale factor. -/
def rescaleImage (c : ImageDataGenConfig) (img : List ℚ) : List ℚ :=
  img.map (fun v => v * c.rescale)

/-- Configuration of a flow_from_directory call: target size, batch size,
class mode and the shuffle flag. -/
structure FlowConfig where
  target_size : ℕ × ℕ
  batch_size : ℕ
  class_mode : String
  shuffle : Bool
deriving DecidableEq

/-- Transcribed from the notebook call creating train_generator: target size
150 by 150, batch size 32, binary class mode. The notebook does not pass the
shuffle argument here, so the library default of shuffling every epoch
applies; the notebook itself marks the contrast by passing shuffle false only
for the validation generator, with the comment that this ensures alignment
for evaluation. -/
def train_generator_config : FlowConfig where
  target_size := (150, 150)
  batch_size := 32
  class_mode := "binary"
  shuffle := true

/-- Transcribed from the notebook call creating validation_generator: target
size 150 by 150, batch size 32, binary class mode, shuffle false. -/
def validation_generator_config : FlowConfig where
  target_size := (150, 150)
  batch_size := 32
  class_mode := "binary"
  shuffle := false

/-- Modelled from the spec: a directory-backed data generator as produced by
flow_from_directory. Missing from src/: the generator internals live in the
Keras library. The field samples lists the (image id, class index) pairs in
directory traversal order; reorder stands for the random shuffling the
library would apply on a given pass when shuffling is enabled. -/
structure Generator where
  config : FlowConfig
  samples : List (ℕ × ℕ)
  reorder : ℕ → List (ℕ × ℕ) → List (ℕ × ℕ)

/-- Modelled from the spec: the order in which a generator yields its samples
on pass k — the fixed directory traversal order when shuffle is false, the
reshuffled order when shuffle is true. -/
def Generator.passOrder (g : Generator) (k : ℕ) : List (ℕ × ℕ) :=
  if g.config.shuffle then g.reorder k g.samples else g.samples

/-- Modelled from the spec: the classes attribute of a generator, the true
labels recorded in directory traversal order, read by the notebook as
y_true. -/
def Generator.classes (g : Generator) : List ℕ :=
  g.samples.map Prod.snd

/-- The notebook's train_generator, over given directory contents. -/
def train_generator (samples : List (ℕ × ℕ))
    (reorder : ℕ → List (ℕ × ℕ) → List (ℕ × ℕ)) : Generator :=
  ⟨train_generator_config, samples, reorder⟩

/-- The notebook's validation_generator, over given directory contents. -/
def validation_generator (samples : List (ℕ × ℕ))
    (reorder : ℕ → List (ℕ × ℕ) → List (ℕ × ℕ)) : Generator :=
  ⟨validation_generator_config, samples, reorder⟩

/-- Batching of a yielded sample sequence into consecutive groups of bs
samples (the final group may be smaller), as the generators assemble
batches. -/
def toBatches {α : Type} (bs : ℕ) : List α → List (List α)
  | [] => []
  | x :: xs => (x :: xs.take (bs - 1)) :: toBatches bs (xs.drop (bs - 1))
termination_by l => l.length
decreasing_by
  simp only [List.length_drop, List.length_cons]
  omega

/-- Alphabetical comparison of class directory names by character code,
embedding the lexicographic string order the library sorts by. -/
def strLe (a b : String) : Bool :=
  go a.data b.data
where
  go : List Char → List Char → Bool
    | [], _ => true
    | _ :: _, [] => false
    | x :: xs, y :: ys =>
      if x.toNat < y.toNat then true
      else if y.toNat < x.toNat then false
      else go xs ys

/-- Sorting of class subdirectory names into alphabetical order. -/
def alphaSort (dirs : List String) : List String :=
  List.insertionSort (fun a b => strLe a b = true) dirs

/-- Modelled from the spec: flow_from_directory assigns class indices by
alphabetical order of the class subdirectory names. Missing from src/: the
assignment happens inside the Keras library. -/
def class_index (dirs : List String) (c : String) : Option ℕ :=
  (alphaSort dirs).findIdx? (· == c)

/-- Class subdirectory names of the extracted cats_and_dogs_filtered dataset,
from the directory layout the spec records. -/
def dataset_class_dirs : List String := ["cats", "dogs"]

/-- Transcribed from the notebook's ConfusionMatrixDisplay call:
display_labels equal Cat then Dog. -/
def display_labels : List String := ["Cat", "Dog"]

/-- Layer descriptors of the sequential stack, carrying exactly the
hyperparameters the notebook passes. -/
inductive Layer where
  | conv2d (filters : ℕ) (kernel : ℕ × ℕ) (activation : String)
      (input_shape : Option (ℕ × ℕ × ℕ))
  | maxPooling2d (pool_size : ℕ) (strides : ℕ)
  | flatten
  | dense (units : ℕ) (activation : String)
deriving DecidableEq

/-- Transcribed from the notebook's models.Sequential call, one descriptor
per layer in order. -/
def model : List Layer :=
  [Layer.conv2d 32 (3, 3) "relu" (some (150, 150, 3)),
   Layer.maxPooling2d 2 2,
   Layer.conv2d 64 (3, 3) "relu" none,
   Layer.maxPooling2d 2 2,
   Layer.conv2d 128 (3, 3) "relu" none,
   Layer.maxPooling2d 2 2,
   Layer.conv2d 128 (3, 3) "relu" none,
   Layer.maxPooling2d 2 2,
   Layer.flatten,
   Layer.dense 512 "relu",
   Layer.dense 1 "sigmoid"]

/-- One convolution-plus-pool stage as the spec describes it: a 3 by 3
convolution with rectified-linear activation at the given channel width,
then a 2 by 2 non-overlapping max pool. -/
def specStage (width : ℕ) (input_shape : Option (ℕ × ℕ × ℕ)) : List Layer :=
  [Layer.conv2d width (3, 3) "relu" input_shape, Layer.maxPooling2d 2 2]

/-- The layer stack exactly as the specification text describes it: four
convolution-plus-pool stages with channel widths 32, 64, 128, 128 (the first
taking the 150 by 150 by 3 input), then flattening, a 512-unit
rectified-linear dense layer, and a single-unit sigmoid output. -/
def spec_model : List Layer :=
  specStage 32 (some (150, 150, 3)) ++ specStage 64 none ++
  specStage 128 none ++ specStage 128 none ++
  [Layer.flatten, Layer.dense 512 "relu", Layer.dense 1 "sigmoid"]

/-- Channel width of a convolution layer, none for other layers. -/
def convWidth : Layer → Option ℕ
  | Layer.conv2d filters _ _ _ => some filters
  | _ => none

/-- Transcribed from the notebook's model.compile call: the optimizer
argument. -/
def compile_optimizer : String := "adam"

/-- Transcribed from the notebook's model.compile call: the loss argument. -/
def compile_loss : String := "binary_crossentropy"

/-- Transcribed from the notebook's model.compile call: the metrics
argument. -/
def compile_metrics : List String := ["accuracy"]

/-- Configuration of the notebook's model.fit call. -/
structure FitConfig where
  steps_per_epoch : ℕ
  epochs : ℕ
  validation_steps : ℕ
deriving DecidableEq

/-- Transcribed from the notebook's model.fit call: 100 steps per epoch,
15 epochs, 50 validation steps. -/
def fit_config : FitConfig where
  steps_per_epoch := 100
  epochs := 15
  validation_steps := 50

/-- One entry of the training history: the four scalar metrics recorded per
completed pass. -/
structure HistoryEntry where
  loss : ℚ
  accuracy : ℚ
  val_loss : ℚ
  val_accuracy : ℚ

/-- Result of the training driver: final parameters, the history record, and
the number of batches drawn from each generator. -/
structure FitResult (P : Type) where
  params : P
  history : List HistoryEntry
  train_batches_drawn : ℕ
  val_batches_drawn : ℕ

/-- Modelled from the spec: one training pass of the driver — the given
number of gradient steps, drawing one batch per step and updating the
parameters each time. Missing from src/: the training loop lives in the
Keras library; P is the parameter state, B the batch type, step the
gradient update on one batch and draw the batch supplier. -/
def trainPass {P B : Type} (step : P → B → P) (draw : ℕ → B) (p : P)
    (steps : ℕ) : P :=
  (List.range steps).foldl (fun q s => step q (draw s)) p

/-- Iterated training passes with no interleaved state: what the parameters
are after n passes when only the training steps touch them. -/
def trainIter {P B : Type} (step : P → B → P) (draw : ℕ → B) (spe : ℕ) :
    ℕ → P → P
  | 0, p => p
  | Nat.succ n, p => trainIter step draw spe n (trainPass step draw p spe)

/-- Modelled from the spec: the epoch loop of the Keras fit driver. Each
epoch runs one training pass of spe steps, then a forward-only evaluation of
vsteps validation batches that computes metrics without touching the
parameters, and appends one four-metric entry to the history. Missing from
src/: the driver lives in the Keras library. -/
def fitLoop {P B : Type} (step : P → B → P) (draw : ℕ → B)
    (trainMetrics valMetrics : P → ℚ × ℚ) (spe vsteps : ℕ) :
    ℕ → FitResult P → FitResult P
  | 0, r => r
  | Nat.succ n, r =>
    fitLoop step draw trainMetrics valMetrics spe vsteps n
      { params := trainPass step draw r.params spe
        history := r.history ++
          [⟨(trainMetrics (trainPass step draw r.params spe)).1,
            (trainMetrics (trainPass step draw r.params spe)).2,
            (valMetrics (trainPass step draw r.params spe)).1,
            (valMetrics (trainPass step draw r.params spe)).2⟩]
        train_batches_drawn := r.train_batches_drawn + spe
        val_batches_drawn := r.val_batches_drawn + vsteps }

/-- Modelled from the spec: the whole model.fit run over a fit
configuration, starting from empty history and fresh parameters. -/
def fitDriver {P B : Type} (step : P → B → P) (draw : ℕ → B)
    (trainMetrics valMetrics : P → ℚ × ℚ) (cfg : FitConfig) (p0 : P) :
    FitResult P :=
  fitLoop step draw trainMetrics valMetrics cfg.steps_per_epoch
    cfg.validation_steps cfg.epochs ⟨p0, [], 0, 0⟩

/-- Stage errors of the notebook's linear run, one per failure class. -/
inductive StageError where
  | acquisition
  | dataPipeline
  | numerical
  | persistence
deriving DecidableEq

/-- Modelled from the spec: the notebook's execution up to and excluding the
save — dataset acquisition, generator construction, model construction and
training, chained with no handler anywhere, so the first raised error is the
outcome. D, G, M, H are the values produced by the successive stages. -/
def preSaveRun {D G M H : Type} (acquire : Except StageError D)
    (buildGenerators : D → Except StageError G)
    (buildModel : G → Except StageError M)
    (trainModel : M → Except StageError H) : Except StageError H :=
  match acquire with
  | Except.error e => Except.error e
  | Except.ok d =>
    match buildGenerators d with
    | Except.error e => Except.error e
    | Except.ok g =>
      match buildModel g with
      | Except.error e => Except.error e
      | Except.ok m => trainModel m

/-- Modelled from the spec: the notebook's linear run including the save of
the trained model, again with no handler: a failure before the save skips
the save, and a failure of the save is the outcome. -/
def runPipeline {D G M H A : Type} (acquire : Except StageError D)
    (buildGenerators : D → Except StageError G)
    (buildModel : G → Except StageError M)
    (trainModel : M → Except StageError H)
    (saveModel : H → Except StageError A) : Except StageError A :=
  match preSaveRun acquire buildGenerators buildModel trainModel with
  | Except.error e => Except.error e
  | Except.ok trained => saveModel trained

/-- A trained model: its layer stack and all learned parameter values. -/
structure TrainedModel where
  architecture : List Layer
  weights : List (List ℚ)
deriving DecidableEq

/-- A saved artifact: the single file model.save writes, holding the layer
stack and all learned parameter values. -/
structure SavedArtifact where
  architecture : List Layer
  weights : List (List ℚ)
deriving DecidableEq

/-- Modelled from the spec: model.save serializes the full graph structure
and all learned parameter values into the single artifact. Missing from
src/: serialization lives in the Keras library. -/
def save (m : TrainedModel) : SavedArtifact :=
  ⟨m.architecture, m.weights⟩

/-- Modelled from the spec: deserialization of a saved artifact back into a
ready-to-predict model. Missing from src/: deserialization lives in the
Keras library. -/
def load_model (a : SavedArtifact) : TrainedModel :=
  ⟨a.architecture, a.weights⟩

/-- Transcribed from the notebook's y_pred cell: a predicted probability is
thresholded to 1 exactly when it is strictly greater than one half. -/
def threshold (p : ℚ) : ℕ :=
  if 1/2 < p then 1 else 0

/-- The vector of thresholded binary predictions the notebook computes from
the per-sample predicted probabilities. -/
def y_pred_of (probs : List ℚ) : List ℕ :=
  probs.map threshold

/-- Modelled from the spec: the binary confusion matrix as
sklearn.metrics.confusion_matrix computes it — cell (i, j) counts the
samples whose true label is i and predicted label is j, pairing the two
vectors position by position. Missing from src/: the computation lives in
scikit-learn. -/
def confusion_matrix (yt yp : List ℕ) (i j : ℕ) : ℕ :=
  (yt.zip yp).countP (fun s => s.1 == i && s.2 == j)

/-! Helper lemmas. -/

theorem countP_zip_range {α β : Type} (p : α → Bool) (q : β → Bool)
    (da : α) (db : β) :
    ∀ (a : List α) (b : List β), a.length = b.length →
      (a.zip b).countP (fun s => p s.1 && q s.2) =
        (List.range a.length).countP
          (fun k => p (a.getD k da) && q (b.getD k db)) := by
  intro a
  induction a with
  | nil => intro b hb; simp
  | cons x xs ih =>
    intro b hb
    cases b with
    | nil => simp at hb
    | cons y ys =>
      simp only [List.length_cons] at hb
      simp only [List.zip_cons_cons, List.countP_cons, List.length_cons,
        List.range_succ_eq_map, List.countP_map]
      rw [ih ys (by omega)]
      simp only [Function.comp_def, List.getD_cons_succ, List.getD_cons_zero]

theorem countP_split {α : Type} (f : α → Bool) (g : α → ℕ) :
    ∀ l : List α, (∀ s ∈ l, g s < 2) →
      l.countP (fun s => f s && (g s == 0)) +
        l.countP (fun s => f s && (g s == 1)) = l.countP f := by
  intro l
  induction l with
  | nil => intro _; simp
  | cons x xs ih =>
    intro hl
    have hx : g x < 2 := hl x (List.mem_cons_self x xs)
    have hxs : ∀ s ∈ xs, g s < 2 := fun s hs => hl s (List.mem_cons_of_mem x hs)
    simp only [List.countP_cons]
    have hih := ih hxs
    rcases (by omega : g x = 0 ∨ g x = 1) with h0 | h0 <;>
      cases hfx : f x <;> simp [h0, hfx] <;> omega

theorem countP_zip_fst {α β : Type} (p : α → Bool) :
    ∀ (a : List α) (b : List β), a.length = b.length →
      (a.zip b).countP (fun s => p s.1) = a.countP p := by
  intro a
  induction a with
  | nil => intro b hb; simp
  | cons x xs ih =>
    intro b hb
    cases b with
    | nil => simp at hb
    | cons y ys =>
      simp only [List.length_cons] at hb
      simp only [List.zip_cons_cons, List.countP_cons]
      rw [ih ys (by omega)]

theorem countP_zip_snd {α β : Type} (p : β → Bool) :
    ∀ (a : List α) (b : List β), a.length = b.length →
      (a.zip b).countP (fun s => p s.2) = b.countP p := by
  intro a
  induction a with
  | nil =>
    intro b hb
    cases b with
    | nil => simp
    | cons y ys => simp at hb
  | cons x xs ih =>
    intro b hb
    cases b with
    | nil => simp at hb
    | cons y ys =>
      simp only [List.length_cons] at hb
      simp only [List.zip_cons_cons, List.countP_cons]
      rw [ih ys (by omega)]

theorem threshold_lt_two (p : ℚ) : threshold p < 2 := by
  unfold threshold
  split <;> omega

theorem mem_y_pred_lt_two {t : ℕ} {probs : List ℚ} (h : t ∈ y_pred_of probs) :
    t < 2 := by
  unfold y_pred_of at h
  obtain ⟨p, _, rfl⟩ := List.mem_map.mp h
  exact threshold_lt_two p

theorem fitLoop_history_length {P B : Type} (step : P → B → P) (draw : ℕ → B)
    (tm vm : P → ℚ × ℚ) (spe vsteps : ℕ) (n : ℕ) :
    ∀ r : FitResult P,
      (fitLoop step draw tm vm spe vsteps n r).history.length =
        r.history.length + n := by
  induction n with
  | zero => intro r; simp [fitLoop]
  | succ n ih =>
    intro r
    simp only [fitLoop]
    rw [ih]
    simp only [List.length_append, List.length_cons, List.length_nil]
    omega

theorem fitLoop_train_batches {P B : Type} (step : P → B → P) (draw : ℕ → B)
    (tm vm : P → ℚ × ℚ) (spe vsteps : ℕ) (n : ℕ) :
    ∀ r : FitResult P,
      (fitLoop step draw tm vm spe vsteps n r).train_batches_drawn =
        r.train_batches_drawn + n * spe := by
  induction n with
  | zero => intro r; simp [fitLoop]
  | succ n ih =>
    intro r
    simp only [fitLoop]
    rw [ih]
    ring

theorem fitLoop_val_batches {P B : Type} (step : P → B → P) (draw : ℕ → B)
    (tm vm : P → ℚ × ℚ) (spe vsteps : ℕ) (n : ℕ) :
    ∀ r : FitResult P,
      (fitLoop step draw tm vm spe vsteps n r).val_batches_drawn =
        r.val_batches_drawn + n * vsteps := by
  induction n with
  | zero => intro r; simp [fitLoop]
  | succ n ih =>
    intro r
    simp only [fitLoop]
    rw [ih]
    ring

theorem fitLoop_params {P B : Type} (step : P → B → P) (draw : ℕ → B)
    (tm vm : P → ℚ × ℚ) (spe vsteps : ℕ) (n : ℕ) :
    ∀ r : FitResult P,
      (fitLoop step draw tm vm spe vsteps n r).params =
        trainIter step draw spe n r.params := by
  induction n with
  | zero => intro r; simp [fitLoop, trainIter]
  | succ n ih =>
    intro r
    simp only [fitLoop, trainIter]
    rw [ih]

theorem toBatches_flatten {α : Type} (bs : ℕ) (l : List α) :
    (toBatches bs l).flatten = l := by
  generalize hn : l.length = n
  induction n using Nat.strong_induction_on generalizing l with
  | _ n ih =>
    cases l with
    | nil => simp [toBatches]
    | cons x xs =>
      have hlt : (xs.drop (bs - 1)).length < n := by
        subst hn
        simp only [List.length_drop, List.length_cons]
        omega
      simp only [toBatches, List.flatten_cons]
      rw [ih _ hlt _ rfl]
      simp [List.take_append_drop]

theorem toBatches_mem_length {α : Type} (bs : ℕ) (l : List α) :
    ∀ b ∈ toBatches bs l, b.length ≤ max bs 1 := by
  generalize hn : l.length = n
  induction n using Nat.strong_induction_on generalizing l with
  | _ n ih =>
    cases l with
    | nil => simp [toBatches]
    | cons x xs =>
      have hlt : (xs.drop (bs - 1)).length < n := by
        subst hn
        simp only [List.length_drop, List.length_cons]
        omega
      simp only [toBatches, List.mem_cons]
      rintro b (rfl | hb)
      · simp only [List.length_cons, List.length_take]
        omega
      · exact ih _ hlt _ rfl b hb

/-! Claim theorems. -/

/-- C1: the validation data generator never shuffles — with its transcribed
configuration (shuffle false) every pass over the same directory contents
yields the samples in the same fixed traversal order, and the labels of the
yielded samples coincide index-for-index with the recorded true labels read
as y_true, as the confusion-matrix computation requires. -/
theorem C1_validation_order_fixed (samples : List (ℕ × ℕ))
    (reorder : ℕ → List (ℕ × ℕ) → List (ℕ × ℕ)) (k k' : ℕ) :
    (validation_generator samples reorder).passOrder k =
      (validation_generator samples reorder).passOrder k' ∧
    ((validation_generator samples reorder).passOrder k).map Prod.snd =
      (validation_generator samples reorder).classes := by
  constructor <;>
    simp [validation_generator, Generator.passOrder, Generator.classes,
      validation_generator_config]

/-- C2: the confusion matrix pairs true labels with thresholded predictions
position by position — cell (i, j) counts exactly the sample indices whose
true label is i and whose thresholded prediction is j, each row i sums to the
support of class i, and each column j sums to the number of samples predicted
as class j. -/
theorem C2_confusion_matrix_sums (y_true : List ℕ) (probs : List ℚ)
    (hlen : y_true.length = probs.length)
    (hbin : ∀ t ∈ y_true, t < 2) :
    (∀ i j, confusion_matrix y_true (y_pred_of probs) i j =
        (List.range y_true.length).countP
          (fun k => (y_true.getD k 2 == i) &&
            ((y_pred_of probs).getD k 2 == j))) ∧
    (∀ i, confusion_matrix y_true (y_pred_of probs) i 0 +
        confusion_matrix y_true (y_pred_of probs) i 1 = y_true.count i) ∧
    (∀ j, confusion_matrix y_true (y_pred_of probs) 0 j +
        confusion_matrix y_true (y_pred_of probs) 1 j =
          (y_pred_of probs).count j) := by
  have hlen2 : y_true.length = (y_pred_of probs).length := by
    simp [y_pred_of, hlen]
  refine ⟨?_, ?_, ?_⟩
  · intro i j
    exact countP_zip_range (fun t => t == i) (fun t => t == j) 2 2
      y_true (y_pred_of probs) hlen2
  · intro i
    have hsnd : ∀ s ∈ y_true.zip (y_pred_of probs), s.2 < 2 := by
      intro s hs
      exact mem_y_pred_lt_two (List.of_mem_zip hs).2
    rw [confusion_matrix, confusion_matrix,
      countP_split (fun s => s.1 == i) Prod.snd _ hsnd,
      countP_zip_fst (fun t => t == i) y_true (y_pred_of probs) hlen2,
      List.count_eq_countP]
  · intro j
    have hfst : ∀ s ∈ y_true.zip (y_pred_of probs), s.1 < 2 := by
      intro s hs
      exact hbin s.1 (List.of_mem_zip hs).1
    have hcomm : ∀ i0 : ℕ,
        confusion_matrix y_true (y_pred_of probs) i0 j =
          (y_true.zip (y_pred_of probs)).countP
            (fun s => (s.2 == j) && (s.1 == i0)) := by
      intro i0
      refine List.countP_congr ?_
      intro s _
      rw [Bool.and_comm]
    rw [hcomm 0, hcomm 1,
      countP_split (fun s => s.2 == j) Prod.fst _ hfst,
      countP_zip_snd (fun t => t == j) y_true (y_pred_of probs) hlen2,
      List.count_eq_countP]

/-- Witness for C2 at a concrete validation set of four samples with true
labels 0, 1, 0, 1 and predicted probabilities 3/4, 1/4, 1/2, 2/3. -/
theorem C2_confusion_matrix_sums_witness :
    confusion_matrix [0, 1, 0, 1] (y_pred_of [3/4, 1/4, 1/2, 2/3]) 0 0 +
      confusion_matrix [0, 1, 0, 1] (y_pred_of [3/4, 1/4, 1/2, 2/3]) 0 1 =
      List.count 0 [0, 1, 0, 1] :=
  (C2_confusion_matrix_sums [0, 1, 0, 1] [3/4, 1/4, 1/2, 2/3]
    (by decide) (by decide)).2.1 0

/-- C3: the model is exactly the fixed sequential stack the spec describes —
four convolution-plus-pool stages at channel widths 32, 64, 128, 128, each
convolution 3 by 3 with rectified-linear activation and each pool a 2 by 2
non-overlapping max, then flattening, a 512-unit rectified-linear dense
layer, and a single-unit sigmoid output; the four convolution widths appear
in that order with one separate descriptor per stage. -/
theorem C3_model_architecture :
    model = spec_model ∧ model.filterMap convWidth = [32, 64, 128, 128] := by
  constructor <;> rfl

/-- C4: with the transcribed fit configuration the driver runs exactly 15
passes, drawing one training batch per step for 100 steps per pass (1500
training batches in all), running a forward-only evaluation of 50 validation
batches per pass (750 in all) that leaves the parameters exactly what the
training steps alone produce, recording one four-metric history entry per
completed pass; the compile configuration is the adam optimizer with binary
cross-entropy loss and the accuracy metric. -/
theorem C4_training_driver {P B : Type} (step : P → B → P) (draw : ℕ → B)
    (trainMetrics valMetrics : P → ℚ × ℚ) (p0 : P) :
    (fitDriver step draw trainMetrics valMetrics fit_config p0).history.length
        = 15 ∧
    (fitDriver step draw trainMetrics valMetrics fit_config
        p0).train_batches_drawn = 15 * 100 ∧
    (fitDriver step draw trainMetrics valMetrics fit_config
        p0).val_batches_drawn = 15 * 50 ∧
    (fitDriver step draw trainMetrics valMetrics fit_config p0).params =
        trainIter step draw 100 15 p0 ∧
    compile_optimizer = "adam" ∧
    compile_loss = "binary_crossentropy" ∧
    compile_metrics = ["accuracy"] ∧
    fit_config.steps_per_epoch = 100 ∧
    fit_config.epochs = 15 ∧
    fit_config.validation_steps = 50 := by
  refine ⟨?_, ?_, ?_, ?_, rfl, rfl, rfl, rfl, rfl, rfl⟩
  · rw [fitDriver, fitLoop_history_length]; rfl
  · rw [fitDriver, fitLoop_train_batches]; rfl
  · rw [fitDriver, fitLoop_val_batches]; rfl
  · rw [fitDriver, fitLoop_params]; rfl

/-- C5: the training-side generator is configured with rotation up to 40
degrees, horizontal and vertical translation up to a fifth of the dimension,
shear up to a fifth, zoom up to a fifth, horizontal flip at probability one
half and edge replication (fill_mode nearest), while the validation-side
generator applies no augmentation at all and its only transform divides
every pixel value by 255; both flows resize to 150 by 150. -/
theorem C5_augmentation_config :
    train_datagen.rescale = 1/255 ∧
    train_datagen.rotation_range = 40 ∧
    train_datagen.width_shift_range = 1/5 ∧
    train_datagen.height_shift_range = 1/5 ∧
    train_datagen.shear_range = 1/5 ∧
    train_datagen.zoom_range = 1/5 ∧
    flip_probability train_datagen = 1/2 ∧
    train_datagen.fill_mode = "nearest" ∧
    isAugmenting train_datagen = true ∧
    isAugmenting val_datagen = false ∧
    (∀ img : List ℚ,
      rescaleImage val_datagen img = img.map (fun v => v / 255)) ∧
    train_generator_config.target_size = (150, 150) ∧
    validation_generator_config.target_size = (150, 150) := by
  refine ⟨rfl, rfl, rfl, rfl, rfl, rfl, rfl, rfl, rfl, rfl, ?_, rfl, rfl⟩
  intro img
  simp [rescaleImage, val_datagen, div_eq_mul_inv, one_div]

/-- C6: persistence round-trips — saving writes the architecture and all
learned parameter values to the single artifact, reloading yields the very
same model, and therefore every prediction function produces identical
outputs on any fixed input for the reloaded and the in-memory model. -/
theorem C6_save_roundtrip (m : TrainedModel)
    (predict : TrainedModel → List ℚ → ℚ) (x : List ℚ) :
    load_model (save m) = m ∧
    (save m).architecture = m.architecture ∧
    (save m).weights = m.weights ∧
    predict (load_model (save m)) x = predict m x := by
  exact ⟨rfl, rfl, rfl, rfl⟩

/-- C7: class indices are assigned by alphabetical order of the class
subdirectory names — for the dataset's cats and dogs directories, cats is
class 0 and dogs is class 1 in either traversal order — and the notebook's
display labels put Cat at row and column 0 and Dog at 1, consistent with
that mapping. -/
theorem C7_label_mapping :
    class_index dataset_class_dirs "cats" = some 0 ∧
    class_index dataset_class_dirs "dogs" = some 1 ∧
    class_index ["dogs", "cats"] "cats" = some 0 ∧
    class_index ["dogs", "cats"] "dogs" = some 1 ∧
    display_labels.getD 0 "" = "Cat" ∧
    display_labels.getD 1 "" = "Dog" := by
  refine ⟨by decide, by decide, by decide, by decide, rfl, rfl⟩

/-- C8: every stage error propagates to the top level with no retry and no
downgrade — a failure before the save makes the whole run fail with exactly
that error no matter what the save stage would do (so no partially trained
model is ever saved), a save failure fails the run, and the run succeeds
only when every stage succeeded. -/
theorem C8_error_propagation {D G M H A : Type}
    (acquire : Except StageError D)
    (buildGenerators : D → Except StageError G)
    (buildModel : G → Except StageError M)
    (trainModel : M → Except StageError H)
    (saveModel : H → Except StageError A) (e : StageError) :
    (preSaveRun acquire buildGenerators buildModel trainModel =
        Except.error e →
      ∀ saveModel2 : H → Except StageError A,
        runPipeline acquire buildGenerators buildModel trainModel saveModel2 =
          Except.error e) ∧
    (∀ trained,
      preSaveRun acquire buildGenerators buildModel trainModel =
          Except.ok trained →
      saveModel trained = Except.error e →
      runPipeline acquire buildGenerators buildModel trainModel saveModel =
        Except.error e) ∧
    (∀ out,
      runPipeline acquire buildGenerators buildModel trainModel saveModel =
          Except.ok out →
      ∃ trained,
        preSaveRun acquire buildGenerators buildModel trainModel =
            Except.ok trained ∧
        saveModel trained = Except.ok out) := by
  refine ⟨?_, ?_, ?_⟩
  · intro hfail saveModel2
    simp [runPipeline, hfail]
  · intro trained hok hsv
    simp [runPipeline, hok, hsv]
  · intro out hok
    unfold runPipeline at hok
    cases hps : preSaveRun acquire buildGenerators buildModel trainModel with
    | error e2 => rw [hps] at hok; exact absurd hok (by simp)
    | ok trained => rw [hps] at hok; exact ⟨trained, rfl, hok⟩

/-- Witness for C8 at a concrete run whose training stage raises a numerical
error while every earlier stage succeeds: the whole run fails with exactly
that error and the save stage never matters. -/
theorem C8_error_propagation_witness :
    runPipeline (Except.ok 0) (fun _ : ℕ => (Except.ok 0 : Except StageError ℕ))
      (fun _ : ℕ => (Except.ok 0 : Except StageError ℕ))
      (fun _ : ℕ => (Except.error StageError.numerical : Except StageError ℕ))
      (fun _ : ℕ => (Except.ok 0 : Except StageError ℕ)) =
      Except.error StageError.numerical :=
  (C8_error_propagation (Except.ok 0)
    (fun _ : ℕ => (Except.ok 0 : Except StageError ℕ))
    (fun _ : ℕ => (Except.ok 0 : Except StageError ℕ))
    (fun _ : ℕ => (Except.error StageError.numerical : Except StageError ℕ))
    (fun _ : ℕ => (Except.ok 0 : Except StageError ℕ))
    StageError.numerical).1 rfl
    (fun _ : ℕ => (Except.ok 0 : Except StageError ℕ))

/-- C9 as frozen is false on the code: the notebook leaves the training
generator's shuffle flag at the library default of true, so over identical
directory contents and identical augmentation draws, two shuffle draws the
library could make yield different sample orders — the training batch
composition is not determined by directory traversal order plus augmentation
randomness alone. -/
theorem C9_counterexample :
    ((train_generator [(0, 0), (1, 1)] (fun _ l => l)).passOrder 0 ==
      (train_generator [(0, 0), (1, 1)] (fun _ l => l.reverse)).passOrder 0)
      = false := by
  decide

/-- C9 amended: every batch is an ordered group of consecutive samples at the
configured batch size 32 (the final batch may be smaller); for the validation
split (shuffle false) the batches partition the samples exactly in directory
traversal order, while for the training split the yielded order is the
per-epoch random shuffle of the traversal order (shuffle defaulting to true),
on top of the per-epoch random augmentation parameters. -/
theorem C9_batch_composition :
    train_generator_config.batch_size = 32 ∧
    validation_generator_config.batch_size = 32 ∧
    (∀ (samples : List (ℕ × ℕ))
        (reorder : ℕ → List (ℕ × ℕ) → List (ℕ × ℕ)) (k : ℕ),
      (toBatches 32
          ((validation_generator samples reorder).passOrder k)).flatten =
        samples) ∧
    (∀ (samples : List (ℕ × ℕ))
        (reorder : ℕ → List (ℕ × ℕ) → List (ℕ × ℕ)) (k : ℕ),
      (train_generator samples reorder).passOrder k = reorder k samples) ∧
    (∀ l : List (ℕ × ℕ), ∀ b ∈ toBatches 32 l, b.length ≤ 32) ∧
    isAugmenting train_datagen = true := by
  refine ⟨rfl, rfl, ?_, ?_, ?_, rfl⟩
  · intro samples reorder k
    rw [toBatches_flatten]
    simp [validation_generator, Generator.passOrder, validation_generator_config]
  · intro samples reorder k
    simp [train_generator, Generator.passOrder, train_generator_config]
  · intro l b hb
    have h := toBatches_mem_length 32 l b hb
    omega

/-- Witness for C9 amended at a concrete two-sample directory: the single
assembled batch is within the size bound. -/
theorem C9_batch_composition_witness :
    ([(0, 0), (1, 1)] : List (ℕ × ℕ)) ∈
        toBatches 32 [((0 : ℕ), (0 : ℕ)), (1, 1)] ∧
    ([(0, 0), (1, 1)] : List (ℕ × ℕ)).length ≤ 32 :=
  ⟨by simp [toBatches], C9_batch_composition.2.2.2.2.1 [(0, 0), (1, 1)]
    [(0, 0), (1, 1)] (by simp [toBatches])⟩

/-- C10: the 0.5 threshold is strict — a predicted probability of exactly one
half is thresholded to 0 (Cat), every thresholded prediction is 0 or 1, and
on a concrete probability vector the thresholding behaves accordingly. -/
theorem C10_threshold_strict :
    threshold (1/2) = 0 ∧
    (∀ p : ℚ, threshold p = 0 ∨ threshold p = 1) ∧
    y_pred_of [1/2, 1/4, 3/4] = [0, 0, 1] := by
  refine ⟨?_, ?_, by norm_num [y_pred_of, threshold]⟩
  · norm_num [threshold]
  · intro p
    unfold threshold
    split <;> simp

end CatDog
